import Mathlib

/-!
Verification development for the pgxtips/crocsoc WebSocket server.

The Go sources are shallowly embedded over `List Nat` byte sequences:
machine integers become `Nat` with explicit `% 2 ^ w` where overflow or
truncation matters, `io.ReadFull` on the connection becomes reading a
prefix of a byte list into a zero-initialised buffer, and fallible Go
functions return `Option` or an explicit result type.

Embedded files: crocsoc/framing.go (first, authoritative variant),
the handshake file (SecAcceptSha, ValidateHeaders, OpeningHandshake)
and the WsHandler entry point.
-/

namespace Crocsoc

/-! ## Byte-level helpers -/

/-- Bytes of a string literal, used to transcribe Go string constants. -/
def strBytes (s : String) : List Nat := s.data.map Char.toNat

/-- Big-endian 2-byte encoding of a 16-bit value, as in
`binary.BigEndian.PutUint16`. -/
def be16 (n : Nat) : List Nat := [n / 256 % 256, n % 256]

/-- Big-endian 8-byte encoding of a 64-bit value, as in
`binary.BigEndian.PutUint64`. -/
def be64 (n : Nat) : List Nat :=
  [n / 2 ^ 56 % 256, n / 2 ^ 48 % 256, n / 2 ^ 40 % 256, n / 2 ^ 32 % 256,
   n / 2 ^ 24 % 256, n / 2 ^ 16 % 256, n / 2 ^ 8 % 256, n % 256]

/-- `binary.BigEndian.Uint16` on a 2-byte buffer. -/
def uint16be : List Nat → Nat
  | [a, b] => a * 256 + b
  | _ => 0

/-- `binary.BigEndian.Uint64` on an 8-byte buffer. -/
def uint64be : List Nat → Nat
  | [a, b, c, d, e, f, g, h] =>
    ((((((a * 256 + b) * 256 + c) * 256 + d) * 256 + e) * 256 + f) * 256 + g) * 256 + h
  | _ => 0

/-- Model of `io.ReadFull(conn, buf)` with `len(buf) = n` where the
returned error is ignored by the caller: the buffer keeps its zero
initialisation for every byte the stream could not provide.  Returns
the filled buffer and the remaining stream. -/
def readFill (n : Nat) (s : List Nat) : List Nat × List Nat :=
  (s.take n ++ List.replicate (n - s.length) 0, s.drop n)

theorem readFill_exact (l t : List Nat) : readFill l.length (l ++ t) = (l, t) := by
  simp [readFill]

theorem readFill_all (n : Nat) (s : List Nat) (h : s.length ≤ n) :
    readFill n s = (s ++ List.replicate (n - s.length) 0, []) := by
  simp [readFill, List.take_of_length_le h, List.drop_eq_nil_of_le h]

/-! ## SHA-1 (crypto/sha1), over byte lists -/

/-- Reduction modulo `2 ^ 32`, the width of the SHA-1 working words. -/
def m32 (x : Nat) : Nat := x % 4294967296

/-- 32-bit left rotation of a value `x < 2 ^ 32`. -/
def rotl (n x : Nat) : Nat := m32 (x * 2 ^ n) + x / 2 ^ (32 - n)

/-- SHA-1 round function: choose, parity, majority, parity. -/
def sha1F (i b c d : Nat) : Nat :=
  if i < 20 then (b &&& c) ||| ((4294967295 - b) &&& d)
  else if i < 40 then b ^^^ c ^^^ d
  else if i < 60 then (b &&& c) ||| (b &&& d) ||| (c &&& d)
  else b ^^^ c ^^^ d

/-- SHA-1 round constants. -/
def sha1K (i : Nat) : Nat :=
  if i < 20 then 0x5A827999
  else if i < 40 then 0x6ED9EBA1
  else if i < 60 then 0x8F1BBCDC
  else 0xCA62C1D6

/-- One SHA-1 compression round. -/
def sha1Step (st : Nat × Nat × Nat × Nat × Nat) (i w : Nat) :
    Nat × Nat × Nat × Nat × Nat :=
  match st with
  | (a, b, c, d, e) =>
    (m32 (rotl 5 a + sha1F i b c d + e + sha1K i + w), a, rotl 30 b, c, d)

/-- Run the 80 compression rounds over the message schedule. -/
def sha1Rounds : Nat × Nat × Nat × Nat × Nat → Nat → List Nat →
    Nat × Nat × Nat × Nat × Nat
  | st, _, [] => st
  | st, i, w :: ws => sha1Rounds (sha1Step st i w) (i + 1) ws

/-- Split a 64-byte block into 16 big-endian 32-bit words. -/
def wordsOfBlock : List Nat → List Nat
  | a :: b :: c :: d :: rest => (((a * 256 + b) * 256 + c) * 256 + d) :: wordsOfBlock rest
  | _ => []

/-- Extend the 16 schedule words by `count` further words. -/
def extendW : List Nat → Nat → List Nat
  | w, 0 => w
  | w, n + 1 =>
    extendW (w ++ [rotl 1 ((w.getD (w.length - 3) 0) ^^^ (w.getD (w.length - 8) 0) ^^^
      (w.getD (w.length - 14) 0) ^^^ (w.getD (w.length - 16) 0))]) n

/-- Compress one 64-byte block into the running hash state. -/
def sha1Block (h : Nat × Nat × Nat × Nat × Nat) (block : List Nat) :
    Nat × Nat × Nat × Nat × Nat :=
  match h, sha1Rounds h 0 (extendW (wordsOfBlock block) 64) with
  | (h0, h1, h2, h3, h4), (a, b, c, d, e) =>
    (m32 (h0 + a), m32 (h1 + b), m32 (h2 + c), m32 (h3 + d), m32 (h4 + e))

/-- Merkle-Damgard padding: 0x80, zeros, then the 64-bit bit length. -/
def sha1Pad (msg : List Nat) : List Nat :=
  msg ++ 128 :: List.replicate ((64 - (msg.length + 9) % 64) % 64) 0 ++
    be64 (8 * msg.length % 2 ^ 64)

/-- Split a padded message into 64-byte blocks; the first argument is
recursion fuel, always at least the number of blocks. -/
def chunks64 : Nat → List Nat → List (List Nat)
  | 0, _ => []
  | _, [] => []
  | fuel + 1, l => l.take 64 :: chunks64 fuel (l.drop 64)

/-- Serialise one hash word to 4 big-endian bytes. -/
def wordBytes (w : Nat) : List Nat :=
  [w / 16777216 % 256, w / 65536 % 256, w / 256 % 256, w % 256]

/-- SHA-1 of a byte sequence (crypto/sha1 `Sum`). -/
def sha1 (msg : List Nat) : List Nat :=
  match (chunks64 (sha1Pad msg).length (sha1Pad msg)).foldl sha1Block
      (0x67452301, 0xEFCDAB89, 0x98BADCFE, 0x10325476, 0xC3D2E1F0) with
  | (h0, h1, h2, h3, h4) =>
    wordBytes h0 ++ wordBytes h1 ++ wordBytes h2 ++ wordBytes h3 ++ wordBytes h4

/-! ## Base64, standard alphabet with padding (encoding/base64 StdEncoding) -/

/-- Character (as a byte) of a 6-bit group in the standard alphabet. -/
def b64Char (n : Nat) : Nat :=
  if n < 26 then 65 + n
  else if n < 52 then 71 + n
  else if n < 62 then n - 4
  else if n = 62 then 43
  else 47

/-- Standard base64 encoding with padding (`EncodeToString`); 61 is the
byte of the padding character. -/
def b64Encode : List Nat → List Nat
  | [] => []
  | [a] => [b64Char (a / 4), b64Char (a % 4 * 16), 61, 61]
  | [a, b] => [b64Char (a / 4), b64Char (a % 4 * 16 + b / 16), b64Char (b % 16 * 4), 61]
  | a :: b :: c :: rest =>
    b64Char (a / 4) :: b64Char (a % 4 * 16 + b / 16) ::
      b64Char (b % 16 * 4 + c / 64) :: b64Char (c % 64) :: b64Encode rest

/-- Value of one base64 character, `none` outside the alphabet. -/
def b64DecVal (c : Nat) : Option Nat :=
  if 65 ≤ c ∧ c ≤ 90 then some (c - 65)
  else if 97 ≤ c ∧ c ≤ 122 then some (c - 71)
  else if 48 ≤ c ∧ c ≤ 57 then some (c + 4)
  else if c = 43 then some 62
  else if c = 47 then some 63
  else none

/-- Decode 4-character quanta with trailing padding, rejecting inputs
whose length is not a multiple of 4 and misplaced padding, as
`StdEncoding.DecodeString` does. -/
def b64DecodeQ : List Nat → Option (List Nat)
  | [] => some []
  | c1 :: c2 :: c3 :: c4 :: rest =>
    match b64DecVal c1, b64DecVal c2 with
    | some v1, some v2 =>
      if c3 = 61 then
        if c4 = 61 ∧ rest = [] then some [v1 * 4 + v2 / 16] else none
      else
        match b64DecVal c3 with
        | some v3 =>
          if c4 = 61 then
            if rest = [] then some [v1 * 4 + v2 / 16, v2 % 16 * 16 + v3 / 4] else none
          else
            match b64DecVal c4 with
            | some v4 =>
              (b64DecodeQ rest).map
                (fun bs => (v1 * 4 + v2 / 16) :: (v2 % 16 * 16 + v3 / 4) :: (v3 % 4 * 64 + v4) :: bs)
            | none => none
        | none => none
    | _, _ => none
  | _ => none

/-- `base64.StdEncoding.DecodeString`: carriage returns and newlines are
skipped, then 4-character quanta are decoded. -/
def b64Decode (s : List Nat) : Option (List Nat) :=
  b64DecodeQ (s.filter (fun c => c != 10 && c != 13))

/-! ## UTF-8 validity (unicode/utf8.Valid) -/

/-- `utf8.Valid`: the byte sequence is a well-formed UTF-8 encoding
(no overlong forms, no surrogates, maximum U+10FFFF). -/
def utf8Valid : List Nat → Bool
  | [] => true
  | b :: rest =>
    if b < 128 then utf8Valid rest
    else if b < 194 then false
    else if b ≤ 223 then
      match rest with
      | b1 :: r => if 128 ≤ b1 ∧ b1 ≤ 191 then utf8Valid r else false
      | [] => false
    else if b ≤ 239 then
      match rest with
      | b1 :: b2 :: r =>
        if (if b = 224 then 160 else 128) ≤ b1 ∧ b1 ≤ (if b = 237 then 159 else 191) ∧
            128 ≤ b2 ∧ b2 ≤ 191 then utf8Valid r
        else false
      | _ => false
    else if b ≤ 244 then
      match rest with
      | b1 :: b2 :: b3 :: r =>
        if (if b = 240 then 144 else 128) ≤ b1 ∧ b1 ≤ (if b = 244 then 143 else 191) ∧
            128 ≤ b2 ∧ b2 ≤ 191 ∧ 128 ≤ b3 ∧ b3 ≤ 191 then utf8Valid r
        else false
      | _ => false
    else false

/-! ## strings.TrimSpace (Unicode-aware, as in Go)

`strings.TrimSpace` trims runes satisfying `unicode.IsSpace`; it scans
ASCII bytes fast and falls back to rune decoding when it meets a byte
at or above 0x80.  We embed `utf8.DecodeRuneInString`,
`utf8.DecodeLastRuneInString` and the trim loops faithfully. -/

/-- The byte values held by the `asciiSpace` table of package strings. -/
def isAsciiSpace (b : Nat) : Bool :=
  b == 9 || b == 10 || b == 11 || b == 12 || b == 13 || b == 32

/-- `unicode.IsSpace` on a decoded rune (the White_Space property). -/
def isSpaceRune (r : Nat) : Bool :=
  r == 9 || r == 10 || r == 11 || r == 12 || r == 13 || r == 32 ||
  r == 133 || r == 160 || r == 5760 || (8192 ≤ r && r ≤ 8202) ||
  r == 8232 || r == 8233 || r == 8239 || r == 8287 || r == 12288

/-- utf8.RuneError. -/
def runeErr : Nat := 65533

/-- `utf8.DecodeRuneInString`: first rune and its byte size; every
invalid or truncated encoding yields `(runeErr, 1)`. -/
def decodeRune : List Nat → Nat × Nat
  | [] => (runeErr, 0)
  | b :: rest =>
    if b < 128 then (b, 1)
    else if b < 194 then (runeErr, 1)
    else if b ≤ 223 then
      match rest with
      | b1 :: _ =>
        if 128 ≤ b1 ∧ b1 ≤ 191 then ((b - 192) * 64 + (b1 - 128), 2) else (runeErr, 1)
      | [] => (runeErr, 1)
    else if b ≤ 239 then
      match rest with
      | b1 :: b2 :: _ =>
        if (if b = 224 then 160 else 128) ≤ b1 ∧ b1 ≤ (if b = 237 then 159 else 191) ∧
            128 ≤ b2 ∧ b2 ≤ 191 then
          ((b - 224) * 4096 + (b1 - 128) * 64 + (b2 - 128), 3)
        else (runeErr, 1)
      | _ => (runeErr, 1)
    else if b ≤ 244 then
      match rest with
      | b1 :: b2 :: b3 :: _ =>
        if (if b = 240 then 144 else 128) ≤ b1 ∧ b1 ≤ (if b = 244 then 143 else 191) ∧
            128 ≤ b2 ∧ b2 ≤ 191 ∧ 128 ≤ b3 ∧ b3 ≤ 191 then
          ((b - 240) * 262144 + (b1 - 128) * 4096 + (b2 - 128) * 64 + (b3 - 128), 4)
        else (runeErr, 1)
      | _ => (runeErr, 1)
    else (runeErr, 1)

/-- `utf8.RuneStart`: a byte that is not a continuation byte. -/
def runeStart (b : Nat) : Bool := b / 64 % 4 != 2

/-- `utf8.DecodeLastRuneInString`: last rune and its byte size,
scanning back at most 4 bytes for a rune start. -/
def decodeLastRune (s : List Nat) : Nat × Nat :=
  let e := s.length
  if e = 0 then (runeErr, 0)
  else
    let lastB := s.getD (e - 1) 0
    if lastB < 128 then (lastB, 1)
    else
      let lim := e - 4
      let start :=
        if 2 ≤ e ∧ lim ≤ e - 2 ∧ runeStart (s.getD (e - 2) 0) then e - 2
        else if 3 ≤ e ∧ lim ≤ e - 3 ∧ runeStart (s.getD (e - 3) 0) then e - 3
        else if 4 ≤ e ∧ lim ≤ e - 4 ∧ runeStart (s.getD (e - 4) 0) then e - 4
        else lim - 1
      match decodeRune (s.drop start) with
      | (r, size) => if start + size = e then (r, size) else (runeErr, 1)

/-- `strings.TrimLeftFunc` with `unicode.IsSpace`; the fuel is an upper
bound on the rune count, each decoded rune spans at least one byte. -/
def trimLeftRunes : Nat → List Nat → List Nat
  | 0, s => s
  | fuel + 1, s =>
    match s with
    | [] => []
    | _ =>
      match decodeRune s with
      | (r, n) => if isSpaceRune r then trimLeftRunes fuel (s.drop n) else s

/-- `strings.TrimRightFunc` with `unicode.IsSpace`. -/
def trimRightRunes : Nat → List Nat → List Nat
  | 0, s => s
  | fuel + 1, s =>
    if s.isEmpty then []
    else
      match decodeLastRune s with
      | (r, n) => if isSpaceRune r then trimRightRunes fuel (s.take (s.length - n)) else s

/-- `strings.TrimFunc` with `unicode.IsSpace`: left trim then right trim. -/
def trimFunc (s : List Nat) : List Nat :=
  trimRightRunes (trimLeftRunes s.length s).length (trimLeftRunes s.length s)

/-- The right-hand ASCII fast loop of `strings.TrimSpace`, falling back
to `trimFunc` at the first non-ASCII byte. -/
def trimAsciiRight : Nat → List Nat → List Nat
  | 0, s => s
  | fuel + 1, s =>
    match s.getLast? with
    | none => []
    | some b =>
      if 128 ≤ b then trimFunc s
      else if isAsciiSpace b then trimAsciiRight fuel s.dropLast
      else s

/-- The left-hand ASCII fast loop of `strings.TrimSpace`. -/
def trimAsciiLeft : List Nat → List Nat
  | [] => []
  | b :: t =>
    if 128 ≤ b then trimFunc (b :: t)
    else if isAsciiSpace b then trimAsciiLeft t
    else trimAsciiRight (b :: t).length (b :: t)

/-- `strings.TrimSpace` on a byte sequence. -/
def goTrimSpace (s : List Nat) : List Nat := trimAsciiLeft s

/-! ## Handshake: SecAcceptSha and the accept token -/

/-- The fixed GUID of RFC 6455 section 1.3. -/
def guidBytes : List Nat := strBytes "258EAFA5-E914-47DA-95CA-C5AB0DC85B11"

/-- `SecAcceptSha`: SHA-1 of the TrimSpace-trimmed client key followed
by the GUID. -/
def SecAcceptSha (wk : List Nat) : List Nat :=
  sha1 (goTrimSpace wk ++ guidBytes)

/-- The Sec-WebSocket-Accept header value computed by
`OpeningHandshake`: standard base64 of `SecAcceptSha`. -/
def acceptToken (wk : List Nat) : List Nat :=
  b64Encode (SecAcceptSha wk)

/-- Trimming of ASCII whitespace only, as the specification words
describe the operation (for comparison with the implementation, whose
`strings.TrimSpace` also trims non-ASCII Unicode whitespace). -/
def asciiTrimSpec (s : List Nat) : List Nat :=
  ((s.dropWhile isAsciiSpace).reverse.dropWhile isAsciiSpace).reverse

/-! ## Frame codec (crocsoc/framing.go, first variant)

The connection is a finite byte stream, a `List Nat`.  `readFrame`
checks only the error of the initial 2-byte header read; the results
of the later `io.ReadFull` calls are discarded, so short reads leave
the zero initialisation of the buffers in place (`readFill`).  The
64-bit extended length is converted to a Go `int`; a value with the
high bit set becomes negative and `make([]byte, payLen)` panics. -/

structure Frame where
  Fin : Bool
  Opcode : Nat
  Payload : List Nat
deriving DecidableEq

inductive ReadFrameResult where
  | eof
  | err (msg : String)
  | panicked
  | ok (f : Frame) (rest : List Nat)
deriving DecidableEq

/-- XOR the repeating 4-byte masking key over the payload. -/
def unmaskBytes (key p : List Nat) : List Nat :=
  p.mapIdx (fun i b => b ^^^ key.getD (i % 4) 0)

/-- The part of `readFrame` after the payload length is known:
`b0`, `b1` are the header bytes, `payLen` the decoded length, `r1` the
remaining stream. -/
def readFrameRest (b0 b1 payLen : Nat) (r1 : List Nat) : ReadFrameResult :=
  if 2 ^ 63 ≤ payLen then ReadFrameResult.panicked
  else if b1 / 128 % 2 = 1 then
    ReadFrameResult.ok
      ⟨b0 / 128 % 2 == 1, b0 % 16,
        unmaskBytes (readFill 4 r1).1 (readFill payLen (readFill 4 r1).2).1⟩
      (readFill payLen (readFill 4 r1).2).2
  else
    ReadFrameResult.ok
      ⟨b0 / 128 % 2 == 1, b0 % 16, (readFill payLen r1).1⟩
      (readFill payLen r1).2

/-- `readFrame`: read the 2-byte header (EOF on an empty stream, an
error on a 1-byte stream, mirroring `io.ReadFull`), decode the
extended payload length, then the masking key and payload. -/
def readFrame (s : List Nat) : ReadFrameResult :=
  match s with
  | [] => ReadFrameResult.eof
  | [_] => ReadFrameResult.err "failed to read frame header"
  | b0 :: b1 :: r0 =>
    if b1 % 128 = 126 then
      readFrameRest b0 b1 (uint16be (readFill 2 r0).1) (readFill 2 r0).2
    else if b1 % 128 = 127 then
      readFrameRest b0 b1 (uint64be (readFill 8 r0).1) (readFill 8 r0).2
    else
      readFrameRest b0 b1 (b1 % 128) r0

/-- `WriteFrame`: header byte, minimal length encoding, unmasked
payload (server to client). -/
def WriteFrame (f : Frame) : List Nat :=
  if f.Payload.length ≤ 125 then
    ((if f.Fin then 128 else 0) + f.Opcode % 16) :: f.Payload.length :: f.Payload
  else if f.Payload.length ≤ 65535 then
    ((if f.Fin then 128 else 0) + f.Opcode % 16) :: 126 ::
      (be16 f.Payload.length ++ f.Payload)
  else
    ((if f.Fin then 128 else 0) + f.Opcode % 16) :: 127 ::
      (be64 (f.Payload.length % 2 ^ 64) ++ f.Payload)

def SendTextFrame (data : List Nat) : List Nat := WriteFrame ⟨true, 1, data⟩

def SendBinaryFrame (data : List Nat) : List Nat := WriteFrame ⟨true, 2, data⟩

def SendPongFrame (payload : List Nat) : List Nat := WriteFrame ⟨true, 10, payload⟩

def SendCloseFrame (code : Nat) (reason : List Nat) : List Nat :=
  WriteFrame ⟨true, 8, be16 (code % 65536) ++ reason⟩

def isControlFrame (f : Frame) : Bool :=
  f.Opcode == 8 || f.Opcode == 9 || f.Opcode == 10

/-- The bytes `handleControlFrame` writes back on the connection:
a close frame with code 1000 in reply to a close, a pong echoing a
ping, nothing for a pong. -/
def handleControlOut (f : Frame) : List Nat :=
  if f.Opcode == 8 then SendCloseFrame 1000 (strBytes "Closing in response")
  else if f.Opcode == 9 then SendPongFrame f.Payload
  else []

inductive MsgResult where
  | msg (payload : List Nat)
  | eofClean
  | err (e : String)
  | panicked
deriving DecidableEq

/-- The `ReadMessage` loop.  `frags` and `iop` are the accumulated
fragments and the initial opcode; the result pairs the returned value
with the bytes written back on the connection.  The fuel only bounds
the recursion: every iteration consumes at least two stream bytes, so
`s.length + 1` is always enough and the exhaustion branch is
unreachable from `ReadMessage`. -/
def readMessageGo : Nat → List Frame → Nat → List Nat → MsgResult × List Nat
  | 0, _, _, _ => (MsgResult.err "fuel exhausted", [])
  | fuel + 1, frags, iop, s =>
    match readFrame s with
    | ReadFrameResult.eof => (MsgResult.eofClean, [])
    | ReadFrameResult.err e => (MsgResult.err ("error reading message: " ++ e), [])
    | ReadFrameResult.panicked => (MsgResult.panicked, [])
    | ReadFrameResult.ok f rest =>
      if isControlFrame f then
        ((readMessageGo fuel frags iop rest).1,
          handleControlOut f ++ (readMessageGo fuel frags iop rest).2)
      else if frags.isEmpty && !(f.Opcode == 1 || f.Opcode == 2) then
        (MsgResult.err "unsupported opcode", [])
      else if !frags.isEmpty && f.Opcode != 0 then
        (MsgResult.err "unexpected opcode in continuation frame", [])
      else
        if f.Fin then
          if (if frags.isEmpty then f.Opcode else iop) = 1 then
            if utf8Valid ((frags ++ [f]).foldl (fun acc fr => acc ++ fr.Payload) []) then
              (MsgResult.msg ((frags ++ [f]).foldl (fun acc fr => acc ++ fr.Payload) []), [])
            else (MsgResult.err "invalid UTF-8 in text frame", [])
          else if (if frags.isEmpty then f.Opcode else iop) = 2 then
            (MsgResult.err "binary frames not supported yet", [])
          else (MsgResult.err "unknown opcode", [])
        else
          readMessageGo fuel (frags ++ [f]) (if frags.isEmpty then f.Opcode else iop) rest

/-- `ReadMessage` on a finite stream. -/
def ReadMessage (s : List Nat) : MsgResult × List Nat :=
  readMessageGo (s.length + 1) [] 0 s

/-! ## Upgrade request validation and WsHandler

A request is modelled by the values the Go code reads from it:
`r.Method`, `r.Host` and the `Header.Get` results of the four
WebSocket headers, all as byte sequences.  A response carries the
status code, the explicitly added headers and the error body. -/

structure Request where
  method : List Nat
  host : List Nat
  secVersion : List Nat
  secKey : List Nat
  upgrade : List Nat
  connection : List Nat
deriving DecidableEq

structure HttpResponse where
  status : Nat
  headers : List (List Nat × List Nat)
  body : String
deriving DecidableEq

/-- ASCII lowering of one byte (`strings.ToLower`; the header values
the code compares are ASCII). -/
def toLowerByte (b : Nat) : Nat := if 65 ≤ b ∧ b ≤ 90 then b + 32 else b

def lowerBytes (s : List Nat) : List Nat := s.map toLowerByte

/-- `strings.Split(s, ",")`: comma-separated pieces, at least one. -/
def splitComma : List Nat → List (List Nat)
  | [] => [[]]
  | b :: t =>
    if b = 44 then [] :: splitComma t
    else
      match splitComma t with
      | h :: t2 => (b :: h) :: t2
      | [] => [[b]]

/-- `ValidateHeaders` (part_002, full variant): host present, the four
headers present, Upgrade is websocket, Connection contains upgrade,
version is exactly 13, and the key decodes to 16 bytes. -/
def ValidateHeaders (r : Request) : Option String :=
  if r.host = [] then some "missing host header"
  else if r.secVersion = [] ∨ r.secKey = [] ∨ r.upgrade = [] ∨ r.connection = [] then
    some "missing required headers"
  else if lowerBytes r.upgrade ≠ strBytes "websocket" then some "invalid upgrade value"
  else if strBytes "upgrade" ∉ (splitComma r.connection).map lowerBytes then
    some "connection missing upgrade value"
  else if r.secVersion ≠ strBytes "13" then some "Invalid Sec-WebSocket-Version"
  else
    match b64Decode r.secKey with
    | none => some "failed to decode client key"
    | some k => if k.length ≠ 16 then some "Sec-WebSocket-Key exceeds 16 bytes" else none

/-- `OpeningHandshake` (part_002, error-returning variant): GET only,
then header validation; `none` means the 101 response is written. -/
def OpeningHandshake (r : Request) : Option String :=
  if r.method ≠ strBytes "GET" then some "Method Not Allowed"
  else ValidateHeaders r

/-- The 101 Switching Protocols response written on success. -/
def handshakeResponse (r : Request) : HttpResponse :=
  { status := 101
    headers := [(strBytes "Upgrade", strBytes "websocket"),
                (strBytes "Connection", strBytes "Upgrade"),
                (strBytes "Sec-WebSocket-Accept", acceptToken r.secKey)]
    body := "" }

/-- `WsHandler` (part_000): on a handshake error reply with
`http.Error(w, err, http.StatusBadRequest)`, else with the 101
response. -/
def WsHandler (r : Request) : HttpResponse :=
  match OpeningHandshake r with
  | some e => { status := 400, headers := [], body := e }
  | none => handshakeResponse r

/-! ## Shared arithmetic lemmas -/

theorem be16_length (n : Nat) : (be16 n).length = 2 := rfl

theorem be64_length (n : Nat) : (be64 n).length = 8 := rfl

theorem uint16be_be16 (n : Nat) (h : n < 65536) : uint16be (be16 n) = n := by
  simp only [be16, uint16be]
  omega

theorem uint64be_be64 (n : Nat) (h : n < 2 ^ 64) : uint64be (be64 n) = n := by
  simp only [be64, uint64be]
  omega

/-! ## Claims -/

set_option maxRecDepth 40000

/-- Claim C1, counterexample: the code trims with `strings.TrimSpace`,
which also removes non-ASCII Unicode whitespace.  For the key
`C2 A0 41` (U+00A0 NO-BREAK SPACE followed by the letter A) the
ASCII-whitespace trim keeps the key unchanged while the code hashes
only the byte 0x41, so the accept token differs from the value the
claim prescribes. -/
theorem accept_token_ascii_trim_counterexample :
    goTrimSpace [194, 160, 65] = [65]
    ∧ asciiTrimSpec [194, 160, 65] = [194, 160, 65]
    ∧ acceptToken [194, 160, 65] ≠ b64Encode (sha1 (asciiTrimSpec [194, 160, 65] ++ guidBytes)) := by
  refine ⟨by decide, by decide, by decide⟩

/-- Claim C1 (amended): for every client key the accept token is the
standard padded base64 encoding of the SHA-1 hash of the
Unicode-whitespace-trimmed key (Go `strings.TrimSpace`) concatenated
with the GUID; for the sample key the token is the 28-character
string `s3pPLMBiTxaQ9kYGzzhZRbK+xOo=`, ending in the padding byte. -/
theorem accept_token_spec :
    (∀ key : List Nat, acceptToken key = b64Encode (sha1 (goTrimSpace key ++ guidBytes)))
    ∧ acceptToken (strBytes "dGhlIHNhbXBsZSBub25jZQ==") = strBytes "s3pPLMBiTxaQ9kYGzzhZRbK+xOo="
    ∧ (acceptToken (strBytes "dGhlIHNhbXBsZSBub25jZQ==")).length = 28
    ∧ (acceptToken (strBytes "dGhlIHNhbXBsZSBub25jZQ==")).getLast? = some 61 :=
  ⟨fun _ => rfl, by decide, by decide, by decide⟩

theorem readFrame_cons_small (b0 b1 : Nat) (r0 : List Nat) (h : b1 % 128 < 126) :
    readFrame (b0 :: b1 :: r0) = readFrameRest b0 b1 (b1 % 128) r0 := by
  simp only [readFrame]
  rw [if_neg (by omega), if_neg (by omega)]

theorem readFrame_cons126 (b0 : Nat) (r0 : List Nat) :
    readFrame (b0 :: 126 :: r0) =
      readFrameRest b0 126 (uint16be (readFill 2 r0).1) (readFill 2 r0).2 := by
  simp [readFrame]

theorem readFrame_cons127 (b0 : Nat) (r0 : List Nat) :
    readFrame (b0 :: 127 :: r0) =
      readFrameRest b0 127 (uint64be (readFill 8 r0).1) (readFill 8 r0).2 := by
  simp [readFrame]

theorem readFrameRest_unmasked (b0 b1 n : Nat) (r1 : List Nat)
    (h : ¬ 2 ^ 63 ≤ n) (hm : ¬ b1 / 128 % 2 = 1) :
    readFrameRest b0 b1 n r1 =
      ReadFrameResult.ok ⟨b0 / 128 % 2 == 1, b0 % 16, (readFill n r1).1⟩ (readFill n r1).2 := by
  simp only [readFrameRest, if_neg h, if_neg hm]

/-- Writing a frame with any opcode below 16 and reading it back is
the identity; payloads up to the Go int range are supported. -/
theorem readFrame_WriteFrame (fin : Bool) (op : Nat) (p : List Nat)
    (hop : op < 16) (hlen : p.length < 2 ^ 63) :
    readFrame (WriteFrame ⟨fin, op, p⟩) = ReadFrameResult.ok ⟨fin, op, p⟩ [] := by
  have hmod : op % 16 = op := Nat.mod_eq_of_lt hop
  have hop2 : ((if fin = true then 128 else 0) + op % 16) % 16 = op := by
    cases fin
    · simp [hmod]
    · simp [hmod]
      omega
  have hfin2 : (((if fin = true then 128 else 0) + op % 16) / 128 % 2 == 1) = fin := by
    cases fin <;> simp [hmod, beq_eq_false_iff_ne, beq_iff_eq] <;> omega
  have hfillp : readFill p.length p = (p, []) := by simpa using readFill_exact p []
  by_cases h125 : p.length ≤ 125
  · simp only [WriteFrame, if_pos h125]
    rw [readFrame_cons_small _ _ _ (by omega)]
    rw [Nat.mod_eq_of_lt (show p.length < 128 by omega)]
    rw [readFrameRest_unmasked _ _ _ _ (by omega) (by omega)]
    rw [hfillp, hfin2, hop2]
  · by_cases h655 : p.length ≤ 65535
    · have hfill2 : readFill 2 (be16 p.length ++ p) = (be16 p.length, p) := by
        have h := readFill_exact (be16 p.length) p
        rwa [be16_length] at h
      simp only [WriteFrame, if_neg h125, if_pos h655]
      rw [readFrame_cons126, hfill2]
      rw [show (be16 p.length, p).1 = be16 p.length from rfl,
          show (be16 p.length, p).2 = p from rfl]
      rw [uint16be_be16 p.length (by omega)]
      rw [readFrameRest_unmasked _ _ _ _ (by omega) (by omega)]
      rw [hfillp, hfin2, hop2]
    · have hm64 : p.length % 2 ^ 64 = p.length := Nat.mod_eq_of_lt (by omega)
      have hfill8 : readFill 8 (be64 (p.length % 2 ^ 64) ++ p) = (be64 (p.length % 2 ^ 64), p) := by
        have h := readFill_exact (be64 (p.length % 2 ^ 64)) p
        rwa [be64_length] at h
      simp only [WriteFrame, if_neg h125, if_neg h655]
      rw [readFrame_cons127, hfill8]
      rw [show (be64 (p.length % 2 ^ 64), p).1 = be64 (p.length % 2 ^ 64) from rfl,
          show (be64 (p.length % 2 ^ 64), p).2 = p from rfl]
      rw [uint64be_be64 _ (by omega), hm64]
      rw [readFrameRest_unmasked _ _ _ _ (by omega) (by omega)]
      rw [hfillp, hfin2, hop2]

/-- Claim C2: for every frame with fin true, an opcode among text,
binary, ping, pong and close, and any payload (within the Go int
range), reading back the bytes written for it yields the same frame:
same fin, same opcode, same payload bytes, nothing left over. -/
theorem write_read_frame_roundtrip (f : Frame) (hfin : f.Fin = true)
    (hop : f.Opcode = 1 ∨ f.Opcode = 2 ∨ f.Opcode = 8 ∨ f.Opcode = 9 ∨ f.Opcode = 10)
    (hlen : f.Payload.length < 2 ^ 63) :
    readFrame (WriteFrame f) = ReadFrameResult.ok f [] := by
  obtain ⟨fin, op, p⟩ := f
  exact readFrame_WriteFrame fin op p (by rcases hop with h | h | h | h | h <;> simp_all) hlen

/-- Claim C2, witness at the text frame carrying `Hello`. -/
theorem write_read_frame_roundtrip_witness :
    readFrame (WriteFrame ⟨true, 1, strBytes "Hello"⟩)
      = ReadFrameResult.ok ⟨true, 1, strBytes "Hello"⟩ [] :=
  write_read_frame_roundtrip ⟨true, 1, strBytes "Hello"⟩ rfl (Or.inl rfl) (by decide)

/-- Claim C3: on the single unmasked 256-byte binary frame
`82 7E 01 00` followed by 256 bytes 0xFF, `ReadMessage` does not
deliver a binary message: it returns the error
`binary frames not supported yet` and writes nothing, although the
test suite of the repository expects the payload to be delivered. -/
theorem binary_message_rejected :
    ReadMessage ([0x82, 0x7E, 0x01, 0x00] ++ List.replicate 256 0xFF)
      = (MsgResult.err "binary frames not supported yet", []) := by
  decide

/-- Claim C9: the reader accepts non-minimal length encodings.  The
text frame `81 7E 00 05 48 65 6C 6C 6F` encodes the length 5 in the
16-bit form; the code delivers the message `Hello` with no close and
no error, where the claim requires a close with code 1002 and no
delivery. -/
theorem nonminimal_length_accepted :
    ReadMessage [0x81, 0x7E, 0x00, 0x05, 0x48, 0x65, 0x6C, 0x6C, 0x6F]
      = (MsgResult.msg (strBytes "Hello"), []) := by
  decide

/-- Claim C4 (amended): the server accepts frames whose mask bit is 0
as data.  Any unmasked final text frame with a valid payload is
delivered to the embedder unchanged, with no error, and no close
frame (in particular none with code 1002) is written. -/
theorem unmasked_frame_accepted (fuel iop : Nat) (p : List Nat)
    (h125 : p.length ≤ 125) (hutf : utf8Valid p = true) :
    readMessageGo (fuel + 1) [] iop (129 :: p.length :: p) = (MsgResult.msg p, []) := by
  have hfillp : readFill p.length p = (p, []) := by simpa using readFill_exact p []
  have hread : readFrame (129 :: p.length :: p) = ReadFrameResult.ok ⟨true, 1, p⟩ [] := by
    rw [readFrame_cons_small _ _ _ (by omega),
        Nat.mod_eq_of_lt (show p.length < 128 by omega),
        readFrameRest_unmasked _ _ _ _ (by omega) (by omega)]
    rw [hfillp]
    simp
  simp only [readMessageGo, hread]
  simp [isControlFrame, hutf]

/-- Claim C4, witness at the unmasked text frame carrying `Hi`. -/
theorem unmasked_frame_accepted_witness :
    ReadMessage [129, 2, 72, 105] = (MsgResult.msg [72, 105], []) :=
  unmasked_frame_accepted 4 0 [72, 105] (by decide) (by decide)

/-- Claim C4, counterexample: the unmasked text frame
`81 05 48 65 6C 6C 6F` is not rejected: the message `Hello` is
delivered and nothing is written back, so no close with code 1002
occurs. -/
theorem unmasked_frame_accepted_counterexample :
    ReadMessage [129, 5, 72, 101, 108, 108, 111] = (MsgResult.msg (strBytes "Hello"), []) := by
  decide

/-- Claim C5 (amended): a text message whose complete concatenated
payload is not valid UTF-8 is never delivered — `ReadMessage` returns
the error `invalid UTF-8 in text frame` — but no close frame (code
1007 or otherwise) is written back; the UTF-8 check runs once on the
concatenated payload of all fragments, not per fragment. -/
theorem invalid_utf8_rejected :
    (∀ fuel iop s f rest, readFrame s = ReadFrameResult.ok f rest → f.Opcode = 1 →
        f.Fin = true → utf8Valid f.Payload = false →
        readMessageGo (fuel + 1) [] iop s = (MsgResult.err "invalid UTF-8 in text frame", []))
    ∧ (∀ fuel frags s f rest, readFrame s = ReadFrameResult.ok f rest →
        frags ≠ [] → f.Opcode = 0 → f.Fin = true →
        utf8Valid ((frags ++ [f]).foldl (fun acc fr => acc ++ fr.Payload) []) = false →
        readMessageGo (fuel + 1) frags 1 s = (MsgResult.err "invalid UTF-8 in text frame", [])) := by
  constructor
  · intro fuel iop s f rest hread hop hfin hutf
    obtain ⟨fin, opc, p⟩ := f
    simp only at hop hfin hutf
    subst hop hfin
    simp only [readMessageGo, hread]
    simp [isControlFrame, hutf]
  · intro fuel frags s f rest hread hfr hop hfin hutf
    obtain ⟨fin, opc, p⟩ := f
    simp only at hop hfin
    subst hop hfin
    rcases frags with _ | ⟨g, gs⟩
    · exact absurd rfl hfr
    · simp only [readMessageGo, hread]
      simp only [List.foldl_append, List.foldl_cons, List.foldl_nil, List.nil_append] at hutf
      simp [isControlFrame, hutf]

/-- Claim C5, witness at the single text frame with payload `FF`. -/
theorem invalid_utf8_rejected_witness :
    readMessageGo 1 [] 0 [129, 1, 255] = (MsgResult.err "invalid UTF-8 in text frame", []) :=
  invalid_utf8_rejected.1 0 0 [129, 1, 255] ⟨true, 1, [255]⟩ [] (by decide) rfl rfl (by decide)

/-- Claim C5, counterexample: on the invalid-UTF-8 text frame
`81 01 FF` the connection output is empty, so no close frame with
code 1007 is sent; the message is rejected with an error instead. -/
theorem invalid_utf8_no_close_counterexample :
    ReadMessage [129, 1, 255] = (MsgResult.err "invalid UTF-8 in text frame", []) := by
  decide

/-- Claim C6: whenever the next frame on the stream is a ping (opcode
9), the loop immediately writes exactly one pong frame whose payload
is byte-for-byte the ping payload, before any output caused by later
frames, and the returned message is that of the remaining stream: the
ping is not delivered and pong order follows ping order. -/
theorem ping_emits_pong (fuel : Nat) (frags : List Frame) (iop : Nat)
    (s rest p : List Nat) (fin : Bool)
    (h : readFrame s = ReadFrameResult.ok ⟨fin, 9, p⟩ rest) :
    readMessageGo (fuel + 1) frags iop s =
      ((readMessageGo fuel frags iop rest).1,
        SendPongFrame p ++ (readMessageGo fuel frags iop rest).2) := by
  simp only [readMessageGo, h]
  simp [isControlFrame, handleControlOut]

/-- Claim C6, witness: the RFC sample ping `89 05 48 65 6C 6C 6F`
makes the server emit `8A 05 48 65 6C 6C 6F` and deliver nothing. -/
theorem ping_emits_pong_witness :
    ReadMessage [137, 5, 72, 101, 108, 108, 111]
      = (MsgResult.eofClean, [138, 5, 72, 101, 108, 108, 111]) := by
  show readMessageGo (7 + 1) [] 0 [137, 5, 72, 101, 108, 108, 111] = _
  rw [ping_emits_pong 7 [] 0 [137, 5, 72, 101, 108, 108, 111] [] [72, 101, 108, 108, 111] true
      (by decide)]
  decide

/-- Claim C7 (amended): a request whose Sec-WebSocket-Version is
present but differs from 13 (all other checks passing) receives the
generic 400 Bad Request with body `Invalid Sec-WebSocket-Version` and
no headers, the same shape as every other validation failure; no 426
status and no Sec-WebSocket-Version response header is produced. -/
theorem version_mismatch_400 (r : Request) (hhost : r.host ≠ [])
    (hv : r.secVersion ≠ []) (hk : r.secKey ≠ []) (hu : r.upgrade ≠ []) (hc : r.connection ≠ [])
    (hup : lowerBytes r.upgrade = strBytes "websocket")
    (hconn : strBytes "upgrade" ∈ (splitComma r.connection).map lowerBytes)
    (h13 : r.secVersion ≠ strBytes "13") (hm : r.method = strBytes "GET") :
    WsHandler r = ⟨400, [], "Invalid Sec-WebSocket-Version"⟩ := by
  simp [WsHandler, OpeningHandshake, ValidateHeaders, hhost, hv, hk, hu, hc, hup, hconn, h13, hm]

/-- Claim C7, witness at a concrete request with version 12. -/
theorem version_mismatch_400_witness :
    WsHandler ⟨strBytes "GET", strBytes "server.example.com", strBytes "12",
        strBytes "dGhlIHNhbXBsZSBub25jZQ==", strBytes "websocket", strBytes "Upgrade"⟩
      = ⟨400, [], "Invalid Sec-WebSocket-Version"⟩ :=
  version_mismatch_400 _ (by decide) (by decide) (by decide) (by decide) (by decide)
    (by decide) (by decide) (by decide) (by decide)

/-- Claim C7, counterexample: an otherwise valid upgrade request with
Sec-WebSocket-Version 8 is answered with status 400, not 426, and
with no headers, in particular no `Sec-WebSocket-Version: 13`. -/
theorem version_mismatch_counterexample :
    (WsHandler ⟨strBytes "GET", strBytes "localhost", strBytes "8",
        strBytes "dGhlIHNhbXBsZSBub25jZQ==", strBytes "websocket", strBytes "Upgrade"⟩).status = 400
    ∧ (WsHandler ⟨strBytes "GET", strBytes "localhost", strBytes "8",
        strBytes "dGhlIHNhbXBsZSBub25jZQ==", strBytes "websocket", strBytes "Upgrade"⟩).headers = [] := by
  constructor
  · decide
  · decide

theorem readFill_nil (n : Nat) : readFill n [] = (List.replicate n 0, []) := by
  simp [readFill]

/-- The reader accepts the 64-bit length 2 ^ 31 (over the 2 ^ 31 - 1
limit the specification gives as example) and materialises a payload
of that size from an empty stream. -/
theorem readFrame_len_2_31 :
    readFrame [130, 127, 0, 0, 0, 0, 128, 0, 0, 0]
      = ReadFrameResult.ok ⟨true, 2, List.replicate 2147483648 0⟩ [] := by
  rw [readFrame_cons127]
  have h8 : readFill 8 [0, 0, 0, 0, 128, 0, 0, 0] = ([0, 0, 0, 0, 128, 0, 0, 0], []) := by
    have h := readFill_exact [0, 0, 0, 0, 128, 0, 0, 0] []
    simpa using h
  rw [h8]
  rw [show ([(0 : Nat), 0, 0, 0, 128, 0, 0, 0], ([] : List Nat)).1 = [0, 0, 0, 0, 128, 0, 0, 0] from rfl,
      show ([(0 : Nat), 0, 0, 0, 128, 0, 0, 0], ([] : List Nat)).2 = [] from rfl]
  rw [show uint64be [0, 0, 0, 0, 128, 0, 0, 0] = 2147483648 from by norm_num [uint64be]]
  rw [readFrameRest_unmasked _ _ _ _ (by norm_num) (by norm_num)]
  rw [readFill_nil]
  norm_num

/-- Claim C8, counterexample: the frame header `82 7F` followed by the
64-bit length 2 ^ 31 does not produce a message-too-big error: the
reader returns a frame whose payload buffer has 2 ^ 31 bytes, so the
allocation from the attacker-supplied length does happen. -/
theorem no_length_cap_counterexample :
    readFrame [130, 127, 0, 0, 0, 0, 128, 0, 0, 0]
      = ReadFrameResult.ok ⟨true, 2, List.replicate 2147483648 0⟩ [] :=
  readFrame_len_2_31

/-- Claim C8 (amended): the reader has no in-memory maximum.  A 64-bit
length with the high bit set wraps to a negative Go int and panics in
`make`; a length of 2 ^ 31 is allocated as requested and returned
with no error. -/
theorem length_high_bit_panics :
    readFrame [130, 127, 128, 0, 0, 0, 0, 0, 0, 0] = ReadFrameResult.panicked
    ∧ readFrame [130, 127, 0, 0, 0, 0, 128, 0, 0, 0]
        = ReadFrameResult.ok ⟨true, 2, List.replicate 2147483648 0⟩ [] :=
  ⟨by decide, readFrame_len_2_31⟩

theorem readFrameRest_cases (b0 b1 n : Nat) (r1 : List Nat) :
    readFrameRest b0 b1 n r1 = ReadFrameResult.panicked
    ∨ ∃ f rest, readFrameRest b0 b1 n r1 = ReadFrameResult.ok f rest := by
  unfold readFrameRest
  split_ifs
  · exact Or.inl rfl
  · exact Or.inr ⟨_, _, rfl⟩
  · exact Or.inr ⟨_, _, rfl⟩

/-- Claim C10 (amended): once the 2-byte header is read, `readFrame`
never reports an error: it either panics (a 64-bit length whose
zero-padded value has the high bit set) or returns a frame; for an
unmasked frame with 7-bit length the bytes the stream could not
provide stay zero in the returned payload.  Only the initial
header read yields EOF (empty stream) or an error (1-byte stream). -/
theorem truncated_frame_no_error :
    (∀ s, 2 ≤ s.length →
        readFrame s = ReadFrameResult.panicked
        ∨ ∃ f rest, readFrame s = ReadFrameResult.ok f rest)
    ∧ (∀ b0 b1 p, b1 < 126 → p.length ≤ b1 →
        readFrame (b0 :: b1 :: p)
          = ReadFrameResult.ok ⟨b0 / 128 % 2 == 1, b0 % 16, p ++ List.replicate (b1 - p.length) 0⟩ [])
    ∧ readFrame [] = ReadFrameResult.eof
    ∧ (∀ b, readFrame [b] = ReadFrameResult.err "failed to read frame header") := by
  refine ⟨?_, ?_, rfl, fun b => rfl⟩
  · intro s hs
    rcases s with _ | ⟨b0, _ | ⟨b1, r⟩⟩
    · simp at hs
    · simp at hs
    · simp only [readFrame]
      split_ifs
      · exact readFrameRest_cases _ _ _ _
      · exact readFrameRest_cases _ _ _ _
      · exact readFrameRest_cases _ _ _ _
  · intro b0 b1 p h126 hlen
    rw [readFrame_cons_small _ _ _ (by omega), Nat.mod_eq_of_lt (by omega : b1 < 128),
        readFrameRest_unmasked _ _ _ _ (by omega) (by omega),
        readFill_all b1 p hlen]

/-- Claim C10, witness: the unmasked header `81 03` followed by the
single byte `48` yields a frame with payload `48 00 00`, no error. -/
theorem truncated_frame_no_error_witness :
    readFrame [129, 3, 72] = ReadFrameResult.ok ⟨true, 1, [72, 0, 0]⟩ [] := by
  rw [truncated_frame_no_error.2.1 129 3 [72] (by omega) (by decide)]
  decide

/-- Claim C10, counterexample: for the masked frame header `81 85`
followed by only the masking key `37 FA 21 3D`, the five missing
payload bytes are not zero: unmasking XORs the key pattern over the
zero buffer, so the payload is `37 FA 21 3D 37`. -/
theorem truncated_masked_frame_counterexample :
    readFrame [129, 133, 55, 250, 33, 61]
        = ReadFrameResult.ok ⟨true, 1, [55, 250, 33, 61, 55]⟩ []
    ∧ [55, 250, 33, 61, 55] ≠ List.replicate 5 0 := by
  constructor
  · decide
  · decide

end Crocsoc
